import Mathlib

/-!
Verification development for the figma-mathtex-editor core: a shallow
embedding of `src/ui/utils/color.ts` (shorthand expansion, hex parsing and
serialization) and of the `ColorPicker` and `SubExpressionStyles`
components (widget state, row reconciliation, registries), together with
theorems settling the specified properties.

JS numbers are modelled as `Option ℚ`: `some q` is the exact value, `none`
models `NaN` (all values produced by this code are exact rationals, so no
floating-point rounding arises; `NaN` propagation through arithmetic,
`Math.round`, `toString(16)` and template interpolation is modelled
explicitly).  Strings are Lean `String`s operated on through their
character lists, matching the JS string primitives used by the source.
-/

/-! ## JS primitives -/

/-- ASCII uppercasing of one character, as `String.prototype.toUpperCase`
acts on the characters that occur here. -/
def jsCharUpper (c : Char) : Char :=
  if 'a' ≤ c ∧ c ≤ 'z' then Char.ofNat (c.toNat - 32) else c

/-- `s.toUpperCase()`. -/
def jsToUpper (s : String) : String := ⟨s.data.map jsCharUpper⟩

/-- `s.replace(/^#/, '')`: strips one leading `#`. -/
def stripHash (s : String) : String :=
  match s.data with
  | '#' :: rest => ⟨rest⟩
  | _ => s

/-- `s.substring(0, n)`. -/
def strTake (s : String) (n : ℕ) : String := ⟨s.data.take n⟩

/-- `s.substring(a, b)` for `a ≤ b`. -/
def strSub (s : String) (a b : ℕ) : String := ⟨(s.data.drop a).take (b - a)⟩

/-- Whitespace as skipped by `parseInt` / trimmed by `trim` (the ASCII
whitespace characters that can occur in these inputs). -/
def jsIsWs (c : Char) : Bool :=
  (c == ' ') || (c == '\t') || (c == '\n') || (c == '\r')

/-- `s.trim()`. -/
def jsTrim (s : String) : String :=
  ⟨((s.data.dropWhile jsIsWs).reverse.dropWhile jsIsWs).reverse⟩

/-- Value of a hexadecimal digit character (both cases), else `none`. -/
def hexDigitVal (c : Char) : Option ℕ :=
  if '0' ≤ c ∧ c ≤ '9' then some (c.toNat - 48)
  else if 'a' ≤ c ∧ c ≤ 'f' then some (c.toNat - 87)
  else if 'A' ≤ c ∧ c ≤ 'F' then some (c.toNat - 55)
  else none

/-- Value of a decimal digit character, else `none`. -/
def decDigitVal (c : Char) : Option ℕ :=
  if '0' ≤ c ∧ c ≤ '9' then some (c.toNat - 48) else none

/-- Core of `parseInt(s, base)`: skip leading whitespace, optional sign,
optionally a `0x`/`0X` marker (radix 16 only), then the longest prefix of
digits; `none` (JS `NaN`) when that prefix is empty. -/
def jsParseIntCore (digitVal : Char → Option ℕ) (base : ℕ) (hexMarker : Bool)
    (s : String) : Option ℤ :=
  let l := s.data.dropWhile jsIsWs
  let signed : Bool × List Char :=
    match l with
    | '-' :: t => (true, t)
    | '+' :: t => (false, t)
    | _ => (false, l)
  let l2 :=
    if hexMarker then
      match signed.2 with
      | '0' :: 'x' :: t => t
      | '0' :: 'X' :: t => t
      | _ => signed.2
    else signed.2
  let ds := l2.takeWhile fun c => (digitVal c).isSome
  if ds.isEmpty then none
  else
    let v : ℤ := ds.foldl (fun acc c => (base : ℤ) * acc + ((digitVal c).getD 0 : ℕ)) 0
    some (if signed.1 then -v else v)

/-- `parseInt(s, 16)`. -/
def jsParseIntHex (s : String) : Option ℤ := jsParseIntCore hexDigitVal 16 true s

/-- `parseInt(s, 10)`. -/
def jsParseIntDec (s : String) : Option ℤ := jsParseIntCore decDigitVal 10 false s

/-- `Math.round`: rounds half toward positive infinity. -/
def jsRound (q : ℚ) : ℤ := ⌊q + 1 / 2⌋

/-- `Math.max(0, Math.min(1, q))`. -/
def clamp01 (q : ℚ) : ℚ := max 0 (min 1 q)

/-- Lowercase hexadecimal digit character for `n < 16`. -/
def hexDigitChar (n : ℕ) : Char :=
  if n < 10 then Char.ofNat (48 + n) else Char.ofNat (87 + n)

/-- Fuel-driven base-16 digit expansion (the fuel is always sufficient). -/
def natToHexLowerAux : ℕ → ℕ → List Char
  | 0, _ => []
  | fuel + 1, n =>
    if n < 16 then [hexDigitChar n]
    else natToHexLowerAux fuel (n / 16) ++ [hexDigitChar (n % 16)]

/-- `n.toString(16)` for a natural number. -/
def natToHexLower (n : ℕ) : List Char := natToHexLowerAux (n + 1) n

/-- `i.toString(16)` for an integer: negative values print as `-` followed
by the digits of the absolute value. -/
def intToHexLower (i : ℤ) : List Char :=
  if i < 0 then '-' :: natToHexLower i.natAbs else natToHexLower i.toNat

/-- `l.padStart(2, '0')` on the character list of a string. -/
def padStart2 (l : List Char) : List Char :=
  if l.length < 2 then List.replicate (2 - l.length) '0' ++ l else l

/-! ## `src/ui/utils/color.ts` -/

/-- The `#`-stripping and uppercasing shared by `expandColor` and
`parseColorWithAlpha`. -/
def jsCleanColor (s : String) : String := jsToUpper (stripHash s)

/-- `s.repeat(n)`. -/
def jsRepeat (s : String) (n : ℕ) : String := ⟨(List.replicate n s.data).flatten⟩

/-- `expandColor` from `color.ts`: shorthand hex expansion. -/
def expandColor (hex : String) : String :=
  if hex = "" then ""
  else
    let cleaned := jsCleanColor hex
    if cleaned.length = 1 then jsRepeat cleaned 6
    else if cleaned.length = 2 then jsRepeat cleaned 3
    else if cleaned.length = 3 then ⟨cleaned.data.flatMap fun c => [c, c]⟩
    else cleaned

/-- `ParsedColor` from `color.ts`; channels are JS numbers (`none` = NaN). -/
structure ParsedColor where
  r : Option ℚ
  g : Option ℚ
  b : Option ℚ
  a : Option ℚ
deriving DecidableEq

/-- `parseInt(s, 16) / 255` (NaN propagates through the division). -/
def hexByteToNum (s : String) : Option ℚ :=
  (jsParseIntHex s).map fun n => (n : ℚ) / 255

/-- `parseColorWithAlpha` from `color.ts`.  The source's
`else if (cleaned.length === 7) { a = 1 }` branch and its implicit
fall-through both leave `a` at its initial `1`, which the embedding's
single `else some 1` captures. -/
def parseColorWithAlpha (hex : String) : ParsedColor :=
  let cleaned := jsCleanColor hex
  let rgb := expandColor (strTake cleaned 6)
  if rgb = "" ∨ rgb.length < 6 then ⟨some 0, some 0, some 0, some 1⟩
  else
    let r := hexByteToNum (strSub rgb 0 2)
    let g := hexByteToNum (strSub rgb 2 4)
    let b := hexByteToNum (strSub rgb 4 6)
    let a : Option ℚ :=
      if 8 ≤ cleaned.length then hexByteToNum (strSub cleaned 6 8)
      else some 1
    ⟨r, g, b, a⟩

/-- One channel of `rgbaToHex8`:
`Math.round(Math.max(0, Math.min(1, n)) * 255).toString(16).padStart(2, '0').toUpperCase()`. -/
def jsNumToHexByte (c : Option ℚ) : String :=
  match c with
  | none => ⟨(padStart2 ['N', 'a', 'N']).map jsCharUpper⟩
  | some q => ⟨(padStart2 (intToHexLower (jsRound (clamp01 q * 255)))).map jsCharUpper⟩

/-- `rgbaToHex8` from `color.ts`. -/
def rgbaToHex8 (r g b a : Option ℚ) : String :=
  "#" ++ jsNumToHexByte r ++ jsNumToHexByte g ++ jsNumToHexByte b ++ jsNumToHexByte a

/-- `toHex8` from `color.ts`: normalization to hex8. -/
def toHex8 (hex : String) : String :=
  let p := parseColorWithAlpha hex
  rgbaToHex8 p.r p.g p.b p.a

/-! ## `ColorPicker` -/

/-- State of one `ColorPicker` instance: the construction-time
`this.options.value` (never reassigned by the class), the three input
surfaces, and the value the swatch was last painted from.  `opacityValue`
is `none` when `useAlpha` is false (no opacity input in the DOM). -/
structure Picker where
  optionsValue : String
  hexValue : String
  pickerValue : String
  opacityValue : Option String
  swatchValue : String
deriving DecidableEq

/-- One `[r, g, b]` entry of `setValue`'s `hex6` computation:
`Math.round(c * 255).toString(16).padStart(2, '0')` (no clamping). -/
def setValueHexPart (c : Option ℚ) : List Char :=
  padStart2 (match c with
    | none => ['N', 'a', 'N']
    | some q => intToHexLower (jsRound (q * 255)))

/-- `String(Math.round(a * 100))`. -/
def setValueOpacity (a : Option ℚ) : String :=
  match a with
  | none => "NaN"
  | some q => toString (jsRound (q * 100))

/-- `ColorPicker.setValue`. -/
def pickerSetValue (value : String) (p : Picker) : Picker :=
  let v := if value = "" then "#000000FF" else value
  let pc := parseColorWithAlpha v
  let hex6 : String :=
    ⟨(setValueHexPart pc.r ++ setValueHexPart pc.g ++ setValueHexPart pc.b).map jsCharUpper⟩
  { p with
    hexValue := strTake (expandColor hex6) 6
    pickerValue := "#" ++ hex6
    opacityValue := p.opacityValue.map fun _ => setValueOpacity pc.a
    swatchValue := v }

/-- The regex test `/^[0-9A-Fa-f]{1,6}$/`. -/
def isHex1to6 (s : String) : Bool :=
  decide (1 ≤ s.length) && decide (s.length ≤ 6)
    && s.data.all fun c => (hexDigitVal c).isSome

/-- JS `x || d` on strings (empty string is falsy). -/
def jsOrStr (v d : String) : String := if v = "" then d else v

/-- `ColorPicker.getValueFromInputs` (and hence `getValue`). -/
def pickerGetValue (p : Picker) : String :=
  let hexRaw := jsTrim p.hexValue
  if !isHex1to6 hexRaw then jsOrStr p.optionsValue "#000000FF"
  else
    let hex6 := strTake (expandColor hexRaw) 6
    let r := hexByteToNum (strSub hex6 0 2)
    let g := hexByteToNum (strSub hex6 2 4)
    let b := hexByteToNum (strSub hex6 4 6)
    let a : Option ℚ :=
      match p.opacityValue with
      | none => some 1
      | some s =>
        match jsParseIntDec s with
        | none => some 1
        | some k => some (((max 0 (min 100 k) : ℤ) : ℚ) / 100)
    rgbaToHex8 r g b a

/-- The `ColorPicker` constructor: fields are created (hex empty, native
picker at its default, opacity `"100"` when present) and then
`setValue(options.value)` runs. -/
def pickerNew (value : String) (useAlpha : Bool) : Picker :=
  pickerSetValue value
    { optionsValue := value
      hexValue := ""
      pickerValue := "#000000"
      opacityValue := if useAlpha then some "100" else none
      swatchValue := "" }

/-- The user replaces the hex field content with `s`; the `input` handler
then syncs the native picker when the new content is valid (the change
notification it also emits does not alter widget state). -/
def pickerHexInputEdit (s : String) (p : Picker) : Picker :=
  let p' := { p with hexValue := s }
  let v := jsTrim s
  if isHex1to6 v then { p' with pickerValue := "#" ++ strTake (expandColor v) 6 } else p'

/-! ## `SubExpressionStyles` -/

/-- One style record (`SubExpressionStyle` in `types`): `occurrences` is
optional (`undefined` is `none`).  Equality of records models the
`JSON.stringify` comparison in the subscribe callback, which is injective
on records of this shape. -/
structure SubExpressionStyle where
  expression : String
  color : String
  occurrences : Option String
deriving DecidableEq

/-- JS `x || d` where `x : string | undefined`. -/
def jsOrOpt (v : Option String) (d : String) : String :=
  match v with
  | none => d
  | some s => if s = "" then d else s

/-- The parts of a row element the component reads or writes: its
`data-row-index` attribute and the two text inputs.  (Rows are identified
by that attribute, which is how `render` collects them.) -/
structure RowEl where
  dataRowIndex : ℕ
  texValue : String
  occValue : String
deriving DecidableEq

/-- Component state: the rows container keyed by `data-row-index` (`dom`),
the `existingRows` registry key set (its values are references to the row
element carrying the same index), the `colorPickersByRow` registry, and
the `activeColorPickerIndices` set. -/
structure Comp where
  dom : ℕ → Option RowEl
  existingRows : ℕ → Bool
  pickers : ℕ → Option Picker
  active : ℕ → Bool

/-- The default used by `style.color || '#5DA6F7FF'`. -/
def defaultRowColor : String := "#5DA6F7FF"

/-- The value a row's color widget is driven with:
`toHex8(style.color || '#5DA6F7FF')`. -/
def rowColorValue (style : SubExpressionStyle) : String :=
  toHex8 (jsOrStr style.color defaultRowColor)

/-- `SubExpressionStyles.updateRowInPlace`, acting on the row element and
picker bound to `index`. -/
def updateRowInPlace (style : SubExpressionStyle) (index : ℕ) (c : Comp) : Comp :=
  let colorValue := rowColorValue style
  let occurrenceValue := jsOrOpt style.occurrences ""
  { c with
    dom := fun k =>
      if k = index then
        (c.dom index).map fun row =>
          { row with
            dataRowIndex := index
            texValue := if row.texValue ≠ style.expression then style.expression else row.texValue
            occValue := if row.occValue ≠ occurrenceValue then occurrenceValue else row.occValue }
      else c.dom k
    pickers := fun k =>
      if k = index then
        (c.pickers index).map fun p =>
          if c.active index = false ∧ pickerGetValue p ≠ colorValue then
            pickerSetValue colorValue p
          else p
      else c.pickers k }

/-- Modelled from the host DOM, to which the spec delegates the escaping
policy: `escapeHtml` assigns `textContent` and reads back `innerHTML`,
i.e. HTML text-node serialization, which escapes `&`, `<` and `>` (and
no other character relevant here; in particular not `"`). -/
def escapeHtml (text : String) : String :=
  ⟨text.data.flatMap fun c =>
    if c = '&' then ['&', 'a', 'm', 'p', ';']
    else if c = '<' then ['&', 'l', 't', ';']
    else if c = '>' then ['&', 'g', 't', ';']
    else [c]⟩

/-- Decoding of the character references that `escapeHtml` can produce,
as the HTML parser applies it inside an attribute value. -/
def decodeEntities : List Char → List Char
  | '&' :: 'a' :: 'm' :: 'p' :: ';' :: rest => '&' :: decodeEntities rest
  | '&' :: 'l' :: 't' :: ';' :: rest => '<' :: decodeEntities rest
  | '&' :: 'g' :: 't' :: ';' :: rest => '>' :: decodeEntities rest
  | c :: rest => c :: decodeEntities rest
  | [] => []

/-- Modelled from the host DOM: the value the parsed `<input>` actually
displays after `createRow` interpolates `escapeHtml s` into
`value="..."` — the attribute ends at the first `"` and character
references are decoded. -/
def attrValueRendered (s : String) : String :=
  ⟨decodeEntities ((escapeHtml s).data.takeWhile fun c => c ≠ '"')⟩

/-- `SubExpressionStyles.createRow`: builds the row markup (the displayed
input values are what the HTML parser makes of the escaped interpolation),
constructs the row's `ColorPicker` (with `useAlpha: true`), and registers
both under `index`. -/
def createRowStep (style : SubExpressionStyle) (index : ℕ) (c : Comp) : Comp :=
  let occurrenceValue := jsOrOpt style.occurrences ""
  let colorValue := rowColorValue style
  let row : RowEl :=
    { dataRowIndex := index
      texValue := attrValueRendered style.expression
      occValue := attrValueRendered occurrenceValue }
  let picker := pickerNew colorValue true
  { c with
    dom := fun k => if k = index then some row else c.dom k
    pickers := fun k => if k = index then some picker else c.pickers k
    existingRows := fun k => if k = index then true else c.existingRows k }

/-- The `styles.forEach` loop of `render`: patch rows that existed in the
pre-removal snapshot, create the others. -/
def renderLoop (snap : ℕ → Bool) : ℕ → List SubExpressionStyle → Comp → Comp
  | _, [], c => c
  | k, style :: rest, c =>
    renderLoop snap (k + 1) rest
      (if snap k then updateRowInPlace style k c else createRowStep style k c)

/-- The removal phase of `render`: every index carrying a DOM row but no
longer covered by the new style list is destroyed — its row is removed
and its active-edit, picker-registry and `existingRows` entries are
evicted. -/
def removalPass (styles : List SubExpressionStyle) (c : Comp) : Comp :=
  { dom := fun k =>
      if (c.dom k).isSome && decide (styles.length ≤ k) then none else c.dom k
    existingRows := fun k =>
      if (c.dom k).isSome && decide (styles.length ≤ k) then false else c.existingRows k
    pickers := fun k =>
      if (c.dom k).isSome && decide (styles.length ≤ k) then none else c.pickers k
    active := fun k =>
      if (c.dom k).isSome && decide (styles.length ≤ k) then false else c.active k }

/-- `SubExpressionStyles.render`: collect the rows present in the DOM,
destroy those whose index is not in the new list, then walk the style
list patching rows that existed in the pre-removal snapshot and creating
the others. -/
def render (styles : List SubExpressionStyle) (c : Comp) : Comp :=
  renderLoop (fun k => (c.dom k).isSome) 0 styles (removalPass styles c)

/-- One `currentStyles.forEach` iteration of the subscribe callback's
equal-length branch: where the record differs from the last observed one
(`JSON.stringify` comparison, injective on these records) and the row
registry has the index, patch in place. -/
def patchStep (last : List SubExpressionStyle) (style : SubExpressionStyle)
    (index : ℕ) (c : Comp) : Comp :=
  match last[index]? with
  | some old =>
    if old ≠ style ∧ c.existingRows index then updateRowInPlace style index c else c
  | none => c

/-- The `currentStyles.forEach` loop of the subscribe callback's
equal-length branch. -/
def patchFrom (last : List SubExpressionStyle) :
    ℕ → List SubExpressionStyle → Comp → Comp
  | _, [], c => c
  | index, style :: rest, c =>
    patchFrom last (index + 1) rest (patchStep last style index c)

/-- The state-subscription callback: structural change (length differs)
triggers a full `render`; otherwise each changed record is patched in
place.  (`lastStyles` is the closure's own copy of the previously observed
list.) -/
def subscribeStep (last cur : List SubExpressionStyle) (c : Comp) : Comp :=
  if cur.length ≠ last.length then render cur c
  else patchFrom last 0 cur c

/-- `SubExpressionStyles.onUpdate`: `none` models the early return taken
when `styles[index]` is absent (no `updateState` write, no `clearError`);
otherwise the written list is returned together with the
`(rowIndex, field)` the error-clear callback is invoked with (`none` for
an unrecognized field name, for which the list is written back
unchanged). -/
def onUpdate (index : ℕ) (field value : String) (styles : List SubExpressionStyle) :
    Option (List SubExpressionStyle × Option (ℕ × String)) :=
  match styles[index]? with
  | none => none
  | some style =>
    let upd : SubExpressionStyle × Option (ℕ × String) :=
      if field = "expression" then ({ style with expression := value }, some (index, "tex"))
      else if field = "color" then ({ style with color := value }, some (index, "color"))
      else if field = "occurrences" then
        ({ style with occurrences := if value = "" then none else some value },
          some (index, "occurrence"))
      else (style, none)
    some (styles.set index upd.1, upd.2)

/-! ## Derived definitions used by the proofs -/

/-- The two uppercase hex characters serializing a byte, as produced by
`jsNumToHexByte` on a non-NaN channel. -/
def byteHex (n : ℕ) : List Char := (padStart2 (natToHexLower n)).map jsCharUpper

/-- A serialized `#RRGGBBAA` string built from four byte values. -/
def mkHex8 (r g b a : ℕ) : String :=
  ⟨'#' :: (byteHex r ++ byteHex g ++ byteHex b ++ byteHex a)⟩

/-- The byte a channel value is serialized to by `rgbaToHex8`. -/
def roundByte (q : ℚ) : ℕ := (jsRound (clamp01 q * 255)).toNat

/-! ## Concrete fixtures used by witness theorems -/

/-- A picker displaying `#FF0000` at full opacity. -/
def pickerFixtureA : Picker :=
  { optionsValue := "#FF0000FF", hexValue := "FF0000", pickerValue := "#FF0000",
    opacityValue := some "100", swatchValue := "#FF0000FF" }

/-- A picker displaying `#00FF00` at full opacity. -/
def pickerFixtureB : Picker :=
  { optionsValue := "#00FF00FF", hexValue := "00FF00", pickerValue := "#00FF00",
    opacityValue := some "100", swatchValue := "#00FF00FF" }

/-- Last-observed style list for the reconciliation fixtures. -/
def lastStylesFixture : List SubExpressionStyle :=
  [⟨"x", "#FF0000FF", none⟩, ⟨"y", "#00FF00FF", none⟩]

/-- Incoming style list: both colors changed, lengths equal. -/
def curStylesFixture : List SubExpressionStyle :=
  [⟨"x", "#0000FFFF", none⟩, ⟨"y", "#123456FF", none⟩]

/-- Component with rows 0 and 1 rendered and row 1 mid-edit. -/
def compFixture1 : Comp :=
  { dom := fun k => if k < 2 then some ⟨k, "", ""⟩ else none
    existingRows := fun k => decide (k < 2)
    pickers := fun k =>
      if k = 0 then some pickerFixtureA else if k = 1 then some pickerFixtureB else none
    active := fun k => decide (k = 1) }

/-- Style list of length 2 for the render fixture. -/
def renderStylesFixture : List SubExpressionStyle :=
  [⟨"a", "#FF0000FF", none⟩, ⟨"b", "#00FF00FF", some "1"⟩]

/-- Component with rows 0 and 2 rendered (index 1 missing, index 2 stale)
and index 2 mid-edit. -/
def compFixture2 : Comp :=
  { dom := fun k => if k = 0 ∨ k = 2 then some ⟨k, "", ""⟩ else none
    existingRows := fun k => decide (k = 0 ∨ k = 2)
    pickers := fun k => if k = 0 ∨ k = 2 then some pickerFixtureA else none
    active := fun k => decide (k = 2) }

lemma strLen_data (s : String) : s.length = s.data.length := by
  obtain ⟨l⟩ := s; rfl

lemma cleanColor_empty : jsCleanColor "" = "" := rfl

lemma expandColor_len1 (s : String) (h : (jsCleanColor s).length = 1) :
    expandColor s = jsRepeat (jsCleanColor s) 6 := by
  by_cases hs : s = ""
  · rw [hs, cleanColor_empty] at h; simp at h
  · simp [expandColor, hs, h]

lemma expandColor_len2 (s : String) (h : (jsCleanColor s).length = 2) :
    expandColor s = jsRepeat (jsCleanColor s) 3 := by
  by_cases hs : s = ""
  · rw [hs, cleanColor_empty] at h; simp at h
  · simp [expandColor, hs, h]

lemma expandColor_len3 (s : String) (h : (jsCleanColor s).length = 3) :
    expandColor s = ⟨(jsCleanColor s).data.flatMap fun c => [c, c]⟩ := by
  by_cases hs : s = ""
  · rw [hs, cleanColor_empty] at h; simp at h
  · simp [expandColor, hs, h]

lemma expandColor_len4 (s : String) (h : 4 ≤ (jsCleanColor s).length) :
    expandColor s = jsCleanColor s := by
  by_cases hs : s = ""
  · rw [hs, cleanColor_empty] at h; simp at h
  · have h1 : (jsCleanColor s).length ≠ 1 := by omega
    have h2 : (jsCleanColor s).length ≠ 2 := by omega
    have h3 : (jsCleanColor s).length ≠ 3 := by omega
    simp [expandColor, hs, h1, h2, h3]

lemma expandColor_len6 (s : String) (hl : 1 ≤ (jsCleanColor s).length)
    (hh : (jsCleanColor s).length ≤ 3) : (expandColor s).length = 6 := by
  have hd := strLen_data (jsCleanColor s)
  have : (jsCleanColor s).length = 1 ∨ (jsCleanColor s).length = 2 ∨
      (jsCleanColor s).length = 3 := by omega
  rcases this with h | h | h
  · rw [expandColor_len1 s h]
    rw [h] at hd
    simp [jsRepeat, List.length_flatten, ← hd.symm]
    omega
  · rw [expandColor_len2 s h]
    rw [h] at hd
    simp [jsRepeat, List.length_flatten]
    omega
  · rw [expandColor_len3 s h]
    rw [h] at hd
    simp [List.length_flatMap, Function.comp_def]
    omega

/-- C5: `expandColor` implements the fixed shorthand rules on the cleaned
(`#`-stripped, uppercased) input: 1 character is repeated six times, 2
characters three times, 3 characters are each duplicated in place, 4 or
more characters pass through unchanged, the empty input yields the empty
string; every 1-, 2-, or 3-character input yields a 6-character result,
and the four concrete examples evaluate as specified. -/
theorem expandColor_shorthand_rules (s : String) :
    ((jsCleanColor s).length = 1 → expandColor s = jsRepeat (jsCleanColor s) 6) ∧
    ((jsCleanColor s).length = 2 → expandColor s = jsRepeat (jsCleanColor s) 3) ∧
    ((jsCleanColor s).length = 3 →
      expandColor s = ⟨(jsCleanColor s).data.flatMap fun c => [c, c]⟩) ∧
    (4 ≤ (jsCleanColor s).length → expandColor s = jsCleanColor s) ∧
    (s = "" → expandColor s = "") ∧
    (1 ≤ (jsCleanColor s).length → (jsCleanColor s).length ≤ 3 →
      (expandColor s).length = 6) ∧
    expandColor "2" = "222222" ∧ expandColor "20" = "202020" ∧
    expandColor "123" = "112233" ∧ expandColor "1A2B3C" = "1A2B3C" := by
  refine ⟨expandColor_len1 s, expandColor_len2 s, expandColor_len3 s, expandColor_len4 s,
    ?_, expandColor_len6 s, by decide, by decide, by decide, by decide⟩
  intro hs; rw [hs]; decide

/-- Witness for C5 at the concrete input `"#ab"`. -/
theorem expandColor_shorthand_rules_witness :
    (jsCleanColor "#ab").length = 2 ∧ expandColor "#ab" = jsRepeat (jsCleanColor "#ab") 3 :=
  ⟨by decide, (expandColor_shorthand_rules "#ab").2.1 (by decide)⟩

/-- C3 (amended): `parseColorWithAlpha` is total by construction; whenever
the expansion of the first six cleaned characters is shorter than six
characters it returns opaque black; but an input whose expansion retains
six or more characters that are not all hex digits yields NaN channels
(via `parseInt` prefix semantics), not black: `"GGGGGG"` parses to three
NaN channels with alpha 1. -/
theorem parseColor_fallback_black :
    (∀ s : String,
      (expandColor (strTake (jsCleanColor s) 6)).length < 6 →
      parseColorWithAlpha s = ⟨some 0, some 0, some 0, some 1⟩) ∧
    parseColorWithAlpha "GGGGGG" = ⟨none, none, none, some 1⟩ := by
  refine ⟨fun s h => ?_, by decide⟩
  unfold parseColorWithAlpha
  simp only []
  rw [if_pos (Or.inr h)]

/-- Witness for C3 at the concrete input `"ABCD"` (length 4, no shorthand). -/
theorem parseColor_fallback_black_witness :
    (expandColor (strTake (jsCleanColor "ABCD") 6)).length < 6 ∧
      parseColorWithAlpha "ABCD" = ⟨some 0, some 0, some 0, some 1⟩ :=
  ⟨by decide, parseColor_fallback_black.1 "ABCD" (by decide)⟩

/-- Counterexample to C3 as stated: `"GGGGGG"` contains non-hex characters
yet does not parse to opaque black. -/
theorem parseColor_not_black_on_nonhex :
    (∃ c ∈ "GGGGGG".data, hexDigitVal c = none) ∧
      parseColorWithAlpha "GGGGGG" ≠ ⟨some 0, some 0, some 0, some 1⟩ := by
  exact ⟨⟨'G', by decide, by decide⟩, by decide⟩

/-- C6 (amended): the alpha produced by `parseColorWithAlpha` follows the
length rule provided the RGB expansion did not fall back: when the cleaned
string has at least 8 characters and the expansion of its first six
characters is a full six characters, alpha is the `parseInt` decode of
characters 7-8 divided by 255; a cleaned length of exactly 7 gives alpha 1
(the stray character is ignored), as does any length of at most 6; and
`parseColorWithAlpha "#AABBCC1"` has alpha exactly 1. -/
theorem parseColor_alpha_rule :
    (∀ s : String, 8 ≤ (jsCleanColor s).length →
      ¬(expandColor (strTake (jsCleanColor s) 6) = "" ∨
        (expandColor (strTake (jsCleanColor s) 6)).length < 6) →
      (parseColorWithAlpha s).a = hexByteToNum (strSub (jsCleanColor s) 6 8)) ∧
    (∀ s : String, (jsCleanColor s).length = 7 → (parseColorWithAlpha s).a = some 1) ∧
    (∀ s : String, (jsCleanColor s).length ≤ 6 → (parseColorWithAlpha s).a = some 1) ∧
    (parseColorWithAlpha "#AABBCC1").a = some 1 := by
  refine ⟨fun s h8 hnf => ?_, fun s h7 => ?_, fun s h6 => ?_, by decide⟩
  · unfold parseColorWithAlpha
    rw [if_neg hnf]
    simp [h8]
  · unfold parseColorWithAlpha
    by_cases hnf : expandColor (strTake (jsCleanColor s) 6) = "" ∨
        (expandColor (strTake (jsCleanColor s) 6)).length < 6
    · rw [if_pos hnf]
    · rw [if_neg hnf]
      have : ¬ 8 ≤ (jsCleanColor s).length := by omega
      simp [this]
  · unfold parseColorWithAlpha
    by_cases hnf : expandColor (strTake (jsCleanColor s) 6) = "" ∨
        (expandColor (strTake (jsCleanColor s) 6)).length < 6
    · rw [if_pos hnf]
    · rw [if_neg hnf]
      have : ¬ 8 ≤ (jsCleanColor s).length := by omega
      simp [this]

/-- Witness for C6 at `"AABBCC80"`. -/
theorem parseColor_alpha_rule_witness :
    8 ≤ (jsCleanColor "AABBCC80").length ∧
      (parseColorWithAlpha "AABBCC80").a = hexByteToNum (strSub (jsCleanColor "AABBCC80") 6 8) :=
  ⟨by decide, parseColor_alpha_rule.1 "AABBCC80" (by decide) (by decide)⟩

/-- Counterexample to C6 as stated: `"##ABCDEFGH"` cleans to a string of
length 9 (at least 8), yet its alpha is 1 rather than the byte decoded
from characters 7-8 divided by 255, because the RGB expansion falls back. -/
theorem parseColor_alpha_lengthRule_fails :
    8 ≤ (jsCleanColor "##ABCDEFGH").length ∧
      (parseColorWithAlpha "##ABCDEFGH").a = some 1 ∧
      (parseColorWithAlpha "##ABCDEFGH").a ≠
        hexByteToNum (strSub (jsCleanColor "##ABCDEFGH") 6 8) := by
  refine ⟨by decide, by decide, ?_⟩
  have h1 : (parseColorWithAlpha "##ABCDEFGH").a = some 1 := by decide
  have h2 : hexByteToNum (strSub (jsCleanColor "##ABCDEFGH") 6 8) =
      some (((15 : ℤ) : ℚ) / 255) := rfl
  rw [h1, h2]
  intro hcontra
  rw [Option.some.injEq] at hcontra
  norm_num at hcontra

/-- C10: a field update at an index where the style list has no record is
dropped: `onUpdate` returns `none` (no state-store write, no error-clear
callback), and any performed write implies a record existed at the index. -/
theorem onUpdate_absent_index_guard (index : ℕ) (field value : String)
    (styles : List SubExpressionStyle) :
    (styles[index]? = none → onUpdate index field value styles = none) ∧
    (∀ out, onUpdate index field value styles = some out → (styles[index]?).isSome) := by
  constructor
  · intro h
    unfold onUpdate
    rw [h]
  · intro out hout
    unfold onUpdate at hout
    cases h : styles[index]? with
    | none => rw [h] at hout; simp at hout
    | some style => simp [h]

/-- Witness for C10: an update at index 5 of an empty list writes nothing. -/
theorem onUpdate_absent_index_guard_witness :
    onUpdate 5 "color" "#FF0000FF" ([] : List SubExpressionStyle) = none :=
  (onUpdate_absent_index_guard 5 "color" "#FF0000FF" []).1 rfl

/-- C2 (amended): when the hex field content does not match the 1-to-6
hex-digit pattern, `getValue` returns the construction-time
`options.value` (with `"#000000FF"` substituted when that value is empty);
`setValue` never updates `options.value`, so the fallback is the
constructor-supplied value, not the value most recently passed to
`setValue`. -/
theorem pickerGetValue_fallback (v : String) (p : Picker) :
    (pickerSetValue v p).optionsValue = p.optionsValue ∧
    (isHex1to6 (jsTrim p.hexValue) = false →
      pickerGetValue p = jsOrStr p.optionsValue "#000000FF") := by
  refine ⟨?_, fun h => ?_⟩
  · unfold pickerSetValue
    rfl
  · simp [pickerGetValue, h]

/-- Witness for C2: a picker whose hex field holds `"XYZ"` falls back to
its construction-time value, and `setValue` leaves `options.value` alone. -/
theorem pickerGetValue_fallback_witness :
    (pickerSetValue "#00FF00FF" pickerFixtureA).optionsValue = pickerFixtureA.optionsValue ∧
      pickerGetValue { pickerFixtureA with hexValue := "XYZ" } =
        jsOrStr { pickerFixtureA with hexValue := "XYZ" }.optionsValue "#000000FF" :=
  ⟨(pickerGetValue_fallback "#00FF00FF" pickerFixtureA).1,
    (pickerGetValue_fallback "#00FF00FF" { pickerFixtureA with hexValue := "XYZ" }).2 (by decide)⟩

/-- Counterexample to C2 as stated: construct with `"#112233FF"`, then
`setValue("#AABBCCFF")`, then the user types `"XYZ"` into the hex field;
`getValue` returns the constructor value `"#112233FF"`, not the most
recently set `"#AABBCCFF"`. -/
theorem pickerGetValue_not_last_set :
    isHex1to6 (jsTrim (pickerHexInputEdit "XYZ"
        (pickerSetValue "#AABBCCFF" (pickerNew "#112233FF" true))).hexValue) = false ∧
      pickerGetValue (pickerHexInputEdit "XYZ"
        (pickerSetValue "#AABBCCFF" (pickerNew "#112233FF" true))) = "#112233FF" ∧
      ("#112233FF" : String) ≠ "#AABBCCFF" := by
  refine ⟨by decide, by decide, by decide⟩

/-- C8 (code bug): the escaping applied by `createRow` leaves `"` intact
(`escapeHtml` only escapes `&`, `<`, `>`), so a value containing a double
quote terminates the double-quoted `value` attribute early: the rendered
input displays a truncated value and the remainder of the payload becomes
markup. -/
theorem escapeHtml_quote_passes_through :
    escapeHtml "\" onfocus=\"alert(1)" = "\" onfocus=\"alert(1)" ∧
      ('"' ∈ (escapeHtml "\" onfocus=\"alert(1)").data) ∧
      attrValueRendered "\" onfocus=\"alert(1)" = "" ∧
      attrValueRendered "\" onfocus=\"alert(1)" ≠ "\" onfocus=\"alert(1)" := by
  refine ⟨by decide, by decide, by decide, by decide⟩

set_option maxRecDepth 4000 in
lemma byteHex_bundle : ∀ n : ℕ, n < 256 →
    (byteHex n).length = 2 ∧ jsParseIntHex ⟨byteHex n⟩ = some (n : ℤ)
      ∧ (byteHex n).map jsCharUpper = byteHex n
      ∧ (∀ c ∈ byteHex n, c ≠ '#') := by decide

lemma clamp01_nonneg (q : ℚ) : 0 ≤ clamp01 q := le_max_left 0 _

lemma clamp01_le_one (q : ℚ) : clamp01 q ≤ 1 :=
  max_le (by norm_num) (min_le_left 1 q)

lemma jsRound_clamp_nonneg (q : ℚ) : 0 ≤ jsRound (clamp01 q * 255) := by
  rw [jsRound]
  have h := clamp01_nonneg q
  have : (0 : ℚ) ≤ clamp01 q * 255 + 1 / 2 := by nlinarith
  exact Int.floor_nonneg.mpr this

lemma jsRound_clamp_le (q : ℚ) : jsRound (clamp01 q * 255) ≤ 255 := by
  rw [jsRound]
  have h := clamp01_le_one q
  have hb : clamp01 q * 255 + 1 / 2 ≤ 255 + 1 / 2 := by nlinarith
  calc ⌊clamp01 q * 255 + 1 / 2⌋ ≤ ⌊(255 : ℚ) + 1 / 2⌋ := Int.floor_le_floor hb
    _ = 255 := by norm_num

lemma roundByte_lt (q : ℚ) : roundByte q < 256 := by
  rw [roundByte]
  have h := jsRound_clamp_le q
  omega

lemma jsNumToHexByte_some (q : ℚ) :
    jsNumToHexByte (some q) = ⟨byteHex (roundByte q)⟩ := by
  rw [jsNumToHexByte, byteHex, roundByte, intToHexLower,
    if_neg (not_lt.mpr (jsRound_clamp_nonneg q))]

lemma strMk_append (l1 l2 : List Char) : (⟨l1⟩ : String) ++ ⟨l2⟩ = ⟨l1 ++ l2⟩ := rfl

lemma rgbaToHex8_some (qr qg qb qa : ℚ) :
    rgbaToHex8 (some qr) (some qg) (some qb) (some qa) =
      mkHex8 (roundByte qr) (roundByte qg) (roundByte qb) (roundByte qa) := by
  rw [rgbaToHex8, jsNumToHexByte_some, jsNumToHexByte_some, jsNumToHexByte_some,
    jsNumToHexByte_some]
  rw [show ("#" : String) = ⟨['#']⟩ from rfl]
  rw [strMk_append, strMk_append, strMk_append, strMk_append]
  apply String.ext
  simp [mkHex8]

lemma toHex8_eq_of_parse (s : String) (qr qg qb qa : ℚ)
    (h : parseColorWithAlpha s = ⟨some qr, some qg, some qb, some qa⟩) :
    toHex8 s = mkHex8 (roundByte qr) (roundByte qg) (roundByte qb) (roundByte qa) := by
  unfold toHex8
  rw [h]
  exact rgbaToHex8_some qr qg qb qa

lemma stripHash_mk_hash (t : List Char) : stripHash ⟨'#' :: t⟩ = ⟨t⟩ := rfl

lemma stripHash_cons_ne (c : Char) (t : List Char) (h : c ≠ '#') :
    stripHash ⟨c :: t⟩ = ⟨c :: t⟩ := by
  unfold stripHash
  split
  · next heq =>
    exfalso
    apply h
    have := congrArg List.head? heq
    simpa using this
  · rfl

lemma parse_mkHex8 (r g b a : ℕ) (hr : r < 256) (hg : g < 256) (hb : b < 256)
    (ha : a < 256) :
    parseColorWithAlpha (mkHex8 r g b a) =
      ⟨some ((r : ℚ) / 255), some ((g : ℚ) / 255), some ((b : ℚ) / 255),
        some ((a : ℚ) / 255)⟩ := by
  obtain ⟨hlR, hpR, hmR, hhR⟩ := byteHex_bundle r hr
  obtain ⟨hlG, hpG, hmG, hhG⟩ := byteHex_bundle g hg
  obtain ⟨hlB, hpB, hmB, hhB⟩ := byteHex_bundle b hb
  obtain ⟨hlA, hpA, hmA, hhA⟩ := byteHex_bundle a ha
  rw [List.length_eq_two] at hlR hlG hlB hlA
  obtain ⟨r1, r2, hR⟩ := hlR
  obtain ⟨g1, g2, hG⟩ := hlG
  obtain ⟨b1, b2, hB⟩ := hlB
  obtain ⟨a1, a2, hA⟩ := hlA
  rw [hR] at hpR hmR hhR
  rw [hG] at hpG hmG hhG
  rw [hB] at hpB hmB hhB
  rw [hA] at hpA hmA hhA
  simp only [List.map_cons, List.map_nil, List.cons.injEq, and_true] at hmR hmG hmB hmA
  obtain ⟨hur1, hur2⟩ := hmR
  obtain ⟨hug1, hug2⟩ := hmG
  obtain ⟨hub1, hub2⟩ := hmB
  obtain ⟨hua1, hua2⟩ := hmA
  have hr1 : r1 ≠ '#' := hhR r1 (by simp)
  have hmk : mkHex8 r g b a = ⟨'#' :: [r1, r2, g1, g2, b1, b2, a1, a2]⟩ := by
    rw [mkHex8, hR, hG, hB, hA]
    simp
  have hclean : jsCleanColor ⟨'#' :: [r1, r2, g1, g2, b1, b2, a1, a2]⟩ =
      ⟨[r1, r2, g1, g2, b1, b2, a1, a2]⟩ := by
    rw [jsCleanColor, stripHash_mk_hash, jsToUpper]
    simp [hur1, hur2, hug1, hug2, hub1, hub2, hua1, hua2]
  have htake : strTake ⟨[r1, r2, g1, g2, b1, b2, a1, a2]⟩ 6 =
      ⟨[r1, r2, g1, g2, b1, b2]⟩ := by
    simp [strTake]
  have hclean6 : jsCleanColor ⟨[r1, r2, g1, g2, b1, b2]⟩ =
      ⟨[r1, r2, g1, g2, b1, b2]⟩ := by
    rw [jsCleanColor, stripHash_cons_ne r1 _ hr1, jsToUpper]
    simp [hur1, hur2, hug1, hug2, hub1, hub2]
  have hexp : expandColor ⟨[r1, r2, g1, g2, b1, b2]⟩ = ⟨[r1, r2, g1, g2, b1, b2]⟩ := by
    rw [expandColor]
    rw [if_neg (by intro h; exact absurd (congrArg String.length h) (by simp))]
    simp only [hclean6, String.mk_length, List.length_cons, List.length_nil]
    norm_num
  have hsubr : strSub ⟨[r1, r2, g1, g2, b1, b2]⟩ 0 2 = ⟨[r1, r2]⟩ := by simp [strSub]
  have hsubg : strSub ⟨[r1, r2, g1, g2, b1, b2]⟩ 2 4 = ⟨[g1, g2]⟩ := by simp [strSub]
  have hsubb : strSub ⟨[r1, r2, g1, g2, b1, b2]⟩ 4 6 = ⟨[b1, b2]⟩ := by simp [strSub]
  have hsuba : strSub ⟨[r1, r2, g1, g2, b1, b2, a1, a2]⟩ 6 8 = ⟨[a1, a2]⟩ := by
    simp [strSub]
  rw [hmk, parseColorWithAlpha]
  simp only [hclean, htake, hexp]
  rw [if_neg (by
    rintro (h | h)
    · exact absurd (congrArg String.length h) (by simp)
    · simp at h)]
  simp only [hsubr, hsubg, hsubb, hsuba, hexByteToNum, hpR, hpG, hpB, hpA,
    String.mk_length, List.length_cons, List.length_nil, Option.map_some']
  norm_num

lemma clamp01_of_bounds (q : ℚ) (h0 : 0 ≤ q) (h1 : q ≤ 1) : clamp01 q = q := by
  rw [clamp01, min_eq_right h1, max_eq_right h0]

lemma jsRound_intCast (n : ℤ) : jsRound (n : ℚ) = n := by
  rw [jsRound]
  rw [Int.floor_eq_iff]
  constructor
  · norm_num
  · norm_num

lemma roundByte_byte (n : ℕ) (h : n < 256) : roundByte ((n : ℚ) / 255) = n := by
  have h0 : (0 : ℚ) ≤ (n : ℚ) / 255 := by positivity
  have h1 : ((n : ℚ)) / 255 ≤ 1 := by
    rw [div_le_one (by norm_num)]
    exact_mod_cast Nat.le_of_lt_succ (by omega)
  rw [roundByte, clamp01_of_bounds _ h0 h1]
  have : (n : ℚ) / 255 * 255 = ((n : ℤ) : ℚ) := by
    field_simp
  rw [this, jsRound_intCast]
  simp

lemma toHex8_mkHex8 (r g b a : ℕ) (hr : r < 256) (hg : g < 256) (hb : b < 256)
    (ha : a < 256) : toHex8 (mkHex8 r g b a) = mkHex8 r g b a := by
  rw [toHex8_eq_of_parse _ ((r : ℚ) / 255) ((g : ℚ) / 255) ((b : ℚ) / 255) ((a : ℚ) / 255)
    (parse_mkHex8 r g b a hr hg hb ha)]
  rw [roundByte_byte r hr, roundByte_byte g hg, roundByte_byte b hb, roundByte_byte a ha]

/-- C4 (amended): `toHex8` is idempotent on every input whose four parsed
channels are numbers (in particular on every hex-digit input, with or
without `#`); it is not idempotent in general, because inputs containing
non-hex characters can produce NaN channels whose `"NAN"` serialization
does not re-parse to itself. -/
theorem toHex8_idempotent_of_numeric (s : String)
    (hr : (parseColorWithAlpha s).r ≠ none) (hg : (parseColorWithAlpha s).g ≠ none)
    (hb : (parseColorWithAlpha s).b ≠ none) (ha : (parseColorWithAlpha s).a ≠ none) :
    toHex8 (toHex8 s) = toHex8 s := by
  obtain ⟨qr, hqr⟩ := Option.ne_none_iff_exists'.mp hr
  obtain ⟨qg, hqg⟩ := Option.ne_none_iff_exists'.mp hg
  obtain ⟨qb, hqb⟩ := Option.ne_none_iff_exists'.mp hb
  obtain ⟨qa, hqa⟩ := Option.ne_none_iff_exists'.mp ha
  have hparse : parseColorWithAlpha s = ⟨some qr, some qg, some qb, some qa⟩ := by
    cases hps : parseColorWithAlpha s with
    | mk r' g' b' a' =>
      rw [hps] at hqr hqg hqb hqa
      simp only at hqr hqg hqb hqa
      rw [hqr, hqg, hqb, hqa]
  rw [toHex8_eq_of_parse s qr qg qb qa hparse]
  exact toHex8_mkHex8 _ _ _ _ (roundByte_lt qr) (roundByte_lt qg) (roundByte_lt qb)
    (roundByte_lt qa)

lemma jsNumToHexByte_one : jsNumToHexByte (some (1 : ℚ)) = ⟨byteHex 255⟩ := by
  rw [jsNumToHexByte_some, show (1 : ℚ) = ((255 : ℕ) : ℚ) / 255 by norm_num,
    roundByte_byte 255 (by norm_num)]

lemma toHex8_G6 : toHex8 "GGGGGG" = "#NANNANNANFF" := by
  rw [show toHex8 "GGGGGG" = rgbaToHex8 none none none (some 1) from rfl,
    rgbaToHex8, jsNumToHexByte_one]
  decide

lemma toHex8_NAN : toHex8 "#NANNANNANFF" = "#NANNAN0ANAN" := by
  rw [show toHex8 "#NANNANNANFF" =
      rgbaToHex8 none none (some (((10 : ℤ) : ℚ) / 255)) none from rfl,
    rgbaToHex8, jsNumToHexByte_some,
    show ((10 : ℤ) : ℚ) / 255 = ((10 : ℕ) : ℚ) / 255 by norm_num,
    roundByte_byte 10 (by norm_num)]
  decide

/-- Counterexample to C4 as stated: normalization is not idempotent on
`"GGGGGG"`, whose NaN channels serialize to `"NAN"` segments that re-parse
differently. -/
theorem toHex8_not_idempotent_on_nonhex :
    toHex8 (toHex8 "GGGGGG") ≠ toHex8 "GGGGGG" := by
  rw [toHex8_G6, toHex8_NAN]
  decide

/-- Witness for C4 at `"#102030"`, whose channels all parse as numbers. -/
theorem toHex8_idempotent_witness :
    (parseColorWithAlpha "#102030").r ≠ none ∧
      toHex8 (toHex8 "#102030") = toHex8 "#102030" :=
  ⟨by decide, toHex8_idempotent_of_numeric "#102030" (by decide) (by decide)
    (by decide) (by decide)⟩

lemma roundByte_close (q : ℚ) (h0 : 0 ≤ q) (h1 : q ≤ 1) :
    |((roundByte q : ℚ)) / 255 - q| ≤ 1 / 255 := by
  have hcl : clamp01 q = q := clamp01_of_bounds q h0 h1
  have hnn : 0 ≤ jsRound (clamp01 q * 255) := jsRound_clamp_nonneg q
  have hcast : ((roundByte q : ℕ) : ℚ) = ((jsRound (clamp01 q * 255) : ℤ) : ℚ) := by
    rw [roundByte]
    exact_mod_cast congrArg (fun i : ℤ => (i : ℚ)) (Int.toNat_of_nonneg hnn)
  rw [hcast, jsRound, hcl]
  have hub : ((⌊q * 255 + 1 / 2⌋ : ℤ) : ℚ) ≤ q * 255 + 1 / 2 := Int.floor_le _
  have hlb : q * 255 + 1 / 2 - 1 < ((⌊q * 255 + 1 / 2⌋ : ℤ) : ℚ) := Int.sub_one_lt_floor _
  rw [abs_le]
  constructor
  · linarith
  · linarith

/-- C7: parsing the serialization of channel values in `[0, 1]` recovers
every channel to within the rounding tolerance `1/255`. -/
theorem parse_rgbaToHex8_roundTrip (r g b a : ℚ)
    (hr0 : 0 ≤ r) (hr1 : r ≤ 1) (hg0 : 0 ≤ g) (hg1 : g ≤ 1)
    (hb0 : 0 ≤ b) (hb1 : b ≤ 1) (ha0 : 0 ≤ a) (ha1 : a ≤ 1) :
    ∃ r' g' b' a' : ℚ,
      parseColorWithAlpha (rgbaToHex8 (some r) (some g) (some b) (some a)) =
        ⟨some r', some g', some b', some a'⟩ ∧
      |r' - r| ≤ 1 / 255 ∧ |g' - g| ≤ 1 / 255 ∧ |b' - b| ≤ 1 / 255 ∧
      |a' - a| ≤ 1 / 255 := by
  refine ⟨(roundByte r : ℚ) / 255, (roundByte g : ℚ) / 255, (roundByte b : ℚ) / 255,
    (roundByte a : ℚ) / 255, ?_, roundByte_close r hr0 hr1, roundByte_close g hg0 hg1,
    roundByte_close b hb0 hb1, roundByte_close a ha0 ha1⟩
  rw [rgbaToHex8_some]
  exact parse_mkHex8 _ _ _ _ (roundByte_lt r) (roundByte_lt g) (roundByte_lt b)
    (roundByte_lt a)

/-- Witness for C7 at `r = g = b = a = 1/2`. -/
theorem parse_rgbaToHex8_roundTrip_witness :
    ∃ r' g' b' a' : ℚ,
      parseColorWithAlpha
          (rgbaToHex8 (some (1 / 2)) (some (1 / 2)) (some (1 / 2)) (some (1 / 2))) =
        ⟨some r', some g', some b', some a'⟩ ∧
      |r' - 1 / 2| ≤ 1 / 255 ∧ |g' - 1 / 2| ≤ 1 / 255 ∧ |b' - 1 / 2| ≤ 1 / 255 ∧
      |a' - 1 / 2| ≤ 1 / 255 :=
  parse_rgbaToHex8_roundTrip (1 / 2) (1 / 2) (1 / 2) (1 / 2) (by norm_num) (by norm_num)
    (by norm_num) (by norm_num) (by norm_num) (by norm_num) (by norm_num) (by norm_num)


lemma updateRowInPlace_active (style : SubExpressionStyle) (i : ℕ) (c : Comp) :
    (updateRowInPlace style i c).active = c.active := rfl

lemma updateRowInPlace_existingRows (style : SubExpressionStyle) (i : ℕ) (c : Comp) :
    (updateRowInPlace style i c).existingRows = c.existingRows := rfl

lemma updateRowInPlace_pickers_ne (style : SubExpressionStyle) (i : ℕ) (c : Comp)
    (k : ℕ) (h : k ≠ i) : (updateRowInPlace style i c).pickers k = c.pickers k := by
  simp [updateRowInPlace, h]

lemma updateRowInPlace_dom_ne (style : SubExpressionStyle) (i : ℕ) (c : Comp)
    (k : ℕ) (h : k ≠ i) : (updateRowInPlace style i c).dom k = c.dom k := by
  simp [updateRowInPlace, h]

lemma updateRowInPlace_pickers_self (style : SubExpressionStyle) (i : ℕ) (c : Comp) :
    (updateRowInPlace style i c).pickers i =
      (c.pickers i).map fun p =>
        if c.active i = false ∧ pickerGetValue p ≠ rowColorValue style then
          pickerSetValue (rowColorValue style) p
        else p := by
  simp [updateRowInPlace]

lemma updateRowInPlace_pickers_self_of_active (style : SubExpressionStyle) (i : ℕ)
    (c : Comp) (h : c.active i = true) :
    (updateRowInPlace style i c).pickers i = c.pickers i := by
  rw [updateRowInPlace_pickers_self]
  cases c.pickers i with
  | none => rfl
  | some p => simp [h]

lemma updateRowInPlace_pickers_isSome (style : SubExpressionStyle) (i : ℕ) (c : Comp) :
    ((updateRowInPlace style i c).pickers i).isSome = (c.pickers i).isSome := by
  rw [updateRowInPlace_pickers_self]
  cases c.pickers i with
  | none => rfl
  | some p => simp

lemma updateRowInPlace_dom_isSome (style : SubExpressionStyle) (i : ℕ) (c : Comp) :
    ((updateRowInPlace style i c).dom i).isSome = (c.dom i).isSome := by
  simp [updateRowInPlace]

lemma createRowStep_active (style : SubExpressionStyle) (i : ℕ) (c : Comp) :
    (createRowStep style i c).active = c.active := rfl

lemma createRowStep_self (style : SubExpressionStyle) (i : ℕ) (c : Comp) :
    (createRowStep style i c).dom i =
        some ⟨i, attrValueRendered style.expression,
          attrValueRendered (jsOrOpt style.occurrences "")⟩ ∧
      (createRowStep style i c).pickers i = some (pickerNew (rowColorValue style) true) ∧
      (createRowStep style i c).existingRows i = true := by
  refine ⟨?_, ?_, ?_⟩ <;> simp [createRowStep]

lemma createRowStep_ne (style : SubExpressionStyle) (i : ℕ) (c : Comp) (k : ℕ)
    (h : k ≠ i) :
    (createRowStep style i c).dom k = c.dom k ∧
      (createRowStep style i c).pickers k = c.pickers k ∧
      (createRowStep style i c).existingRows k = c.existingRows k := by
  refine ⟨?_, ?_, ?_⟩ <;> simp [createRowStep, h]

lemma patchStep_eq_some (last : List SubExpressionStyle) (style : SubExpressionStyle)
    (n : ℕ) (c : Comp) (old : SubExpressionStyle) (hl : last[n]? = some old) :
    patchStep last style n c =
      if old ≠ style ∧ c.existingRows n then updateRowInPlace style n c else c := by
  unfold patchStep
  rw [hl]

lemma patchStep_eq_none (last : List SubExpressionStyle) (style : SubExpressionStyle)
    (n : ℕ) (c : Comp) (hl : last[n]? = none) : patchStep last style n c = c := by
  unfold patchStep
  rw [hl]

lemma patchStep_active (last : List SubExpressionStyle) (style : SubExpressionStyle)
    (n : ℕ) (c : Comp) : (patchStep last style n c).active = c.active := by
  cases hl : last[n]? with
  | none => rw [patchStep_eq_none last style n c hl]
  | some old =>
    rw [patchStep_eq_some last style n c old hl]
    by_cases hcond : old ≠ style ∧ c.existingRows n = true
    · rw [if_pos hcond, updateRowInPlace_active]
    · rw [if_neg hcond]

lemma patchStep_existingRows (last : List SubExpressionStyle)
    (style : SubExpressionStyle) (n : ℕ) (c : Comp) :
    (patchStep last style n c).existingRows = c.existingRows := by
  cases hl : last[n]? with
  | none => rw [patchStep_eq_none last style n c hl]
  | some old =>
    rw [patchStep_eq_some last style n c old hl]
    by_cases hcond : old ≠ style ∧ c.existingRows n = true
    · rw [if_pos hcond, updateRowInPlace_existingRows]
    · rw [if_neg hcond]

lemma patchStep_pickers_ne (last : List SubExpressionStyle) (style : SubExpressionStyle)
    (n : ℕ) (c : Comp) (k : ℕ) (h : k ≠ n) :
    (patchStep last style n c).pickers k = c.pickers k := by
  cases hl : last[n]? with
  | none => rw [patchStep_eq_none last style n c hl]
  | some old =>
    rw [patchStep_eq_some last style n c old hl]
    by_cases hcond : old ≠ style ∧ c.existingRows n = true
    · rw [if_pos hcond, updateRowInPlace_pickers_ne _ _ _ _ h]
    · rw [if_neg hcond]

lemma patchStep_pickers_of_active (last : List SubExpressionStyle)
    (style : SubExpressionStyle) (n : ℕ) (c : Comp) (k : ℕ) (h : c.active k = true) :
    (patchStep last style n c).pickers k = c.pickers k := by
  cases hl : last[n]? with
  | none => rw [patchStep_eq_none last style n c hl]
  | some old =>
    rw [patchStep_eq_some last style n c old hl]
    by_cases hcond : old ≠ style ∧ c.existingRows n = true
    · rw [if_pos hcond]
      by_cases hkn : k = n
      · subst hkn
        exact updateRowInPlace_pickers_self_of_active _ _ _ h
      · exact updateRowInPlace_pickers_ne _ _ _ _ hkn
    · rw [if_neg hcond]

lemma patchFrom_active (last : List SubExpressionStyle) (l : List SubExpressionStyle) :
    ∀ (n : ℕ) (c : Comp), (patchFrom last n l c).active = c.active := by
  induction l with
  | nil => intro n c; rfl
  | cons style rest ih =>
    intro n c
    rw [patchFrom, ih, patchStep_active]

lemma patchFrom_pickers_lt (last : List SubExpressionStyle)
    (l : List SubExpressionStyle) :
    ∀ (n : ℕ) (c : Comp) (k : ℕ), k < n →
      (patchFrom last n l c).pickers k = c.pickers k := by
  induction l with
  | nil => intro n c k _; rfl
  | cons style rest ih =>
    intro n c k hk
    rw [patchFrom, ih _ _ _ (by omega), patchStep_pickers_ne _ _ _ _ _ (by omega)]

lemma patchFrom_pickers_of_active (last : List SubExpressionStyle)
    (l : List SubExpressionStyle) :
    ∀ (n : ℕ) (c : Comp) (k : ℕ), c.active k = true →
      (patchFrom last n l c).pickers k = c.pickers k := by
  induction l with
  | nil => intro n c k _; rfl
  | cons style rest ih =>
    intro n c k hk
    rw [patchFrom]
    rw [ih _ _ _ (by rw [patchStep_active]; exact hk)]
    exact patchStep_pickers_of_active _ _ _ _ _ hk

lemma patchFrom_pickers_changed (last : List SubExpressionStyle)
    (l : List SubExpressionStyle) :
    ∀ (n : ℕ) (c : Comp) (j : ℕ) (old sj : SubExpressionStyle) (p : Picker),
      n ≤ j → l[j - n]? = some sj → last[j]? = some old → old ≠ sj →
      c.existingRows j = true → c.active j = false → c.pickers j = some p →
      (pickerGetValue p = rowColorValue sj ∧
          (patchFrom last n l c).pickers j = some p) ∨
        (patchFrom last n l c).pickers j =
          some (pickerSetValue (rowColorValue sj) p) := by
  induction l with
  | nil =>
    intro n c j old sj p hnj hidx
    simp at hidx
  | cons style rest ih =>
    intro n c j old sj p hnj hidx hold hne hrow hact hp
    by_cases hj : j = n
    · subst hj
      rw [Nat.sub_self] at hidx
      simp only [List.getElem?_cons_zero, Option.some.injEq] at hidx
      subst hidx
      rw [patchFrom, patchFrom_pickers_lt last rest (j + 1) _ j (by omega),
        patchStep_eq_some last style j c old hold, if_pos ⟨hne, hrow⟩,
        updateRowInPlace_pickers_self, hp, Option.map_some']
      by_cases hgv : pickerGetValue p = rowColorValue style
      · left
        refine ⟨hgv, ?_⟩
        rw [if_neg (by simp [hgv])]
      · right
        rw [if_pos ⟨hact, hgv⟩]
    · have hidx' : rest[j - (n + 1)]? = some sj := by
        have hsz : j - n = (j - (n + 1)) + 1 := by omega
        rw [hsz] at hidx
        simpa using hidx
      rw [patchFrom]
      refine ih (n + 1) (patchStep last style n c) j old sj p (by omega) hidx' hold hne
        ?_ ?_ ?_
      · rw [patchStep_existingRows]; exact hrow
      · rw [patchStep_active]; exact hact
      · rw [patchStep_pickers_ne _ _ _ _ _ hj]; exact hp

/-- C1: on an equal-length state notification the reconciler takes the
in-place patch branch; the picker of every row in the active-edit set is
left completely untouched (even if its incoming color differs), while
every row outside the active-edit set whose color changed (with its row
and picker registered) ends up showing the new normalized hex8 value:
either its picker already reported exactly that value and is left alone,
or it is driven with `setValue` of that value. -/
theorem subscribe_activeEdit_guard (last cur : List SubExpressionStyle) (c : Comp)
    (hlen : cur.length = last.length) :
    (∀ i, c.active i = true →
      (subscribeStep last cur c).pickers i = c.pickers i) ∧
    (∀ j old sj p, c.active j = false → c.existingRows j = true →
      last[j]? = some old → cur[j]? = some sj → old.color ≠ sj.color →
      c.pickers j = some p →
      (pickerGetValue p = rowColorValue sj ∧
          (subscribeStep last cur c).pickers j = some p) ∨
        (subscribeStep last cur c).pickers j =
          some (pickerSetValue (rowColorValue sj) p)) := by
  have hsub : subscribeStep last cur c = patchFrom last 0 cur c := by
    rw [subscribeStep, if_neg (by omega)]
  rw [hsub]
  constructor
  · intro i hi
    exact patchFrom_pickers_of_active last cur 0 c i hi
  · intro j old sj p hact hrow hold hcur hne hp
    refine patchFrom_pickers_changed last cur 0 c j old sj p (Nat.zero_le j) ?_ hold
      (fun he => hne (by rw [he])) hrow hact hp
    simpa using hcur

/-- Witness for C1 on the two-row fixture: row 1 is mid-edit and its
picker is untouched although its color changed; row 0 is not being edited
and its picker is driven to the new normalized value (or already shows
it). -/
theorem subscribe_activeEdit_guard_witness :
    (subscribeStep lastStylesFixture curStylesFixture compFixture1).pickers 1 =
        compFixture1.pickers 1 ∧
      ((pickerGetValue pickerFixtureA = rowColorValue ⟨"x", "#0000FFFF", none⟩ ∧
          (subscribeStep lastStylesFixture curStylesFixture compFixture1).pickers 0 =
            some pickerFixtureA) ∨
        (subscribeStep lastStylesFixture curStylesFixture compFixture1).pickers 0 =
          some (pickerSetValue (rowColorValue ⟨"x", "#0000FFFF", none⟩) pickerFixtureA)) := by
  have h := subscribe_activeEdit_guard lastStylesFixture curStylesFixture compFixture1 rfl
  exact ⟨h.1 1 (by decide), h.2 0 ⟨"x", "#FF0000FF", none⟩ ⟨"x", "#0000FFFF", none⟩
    pickerFixtureA (by decide) (by decide) rfl rfl (by decide) (by decide)⟩

lemma renderLoop_active (snap : ℕ → Bool) (l : List SubExpressionStyle) :
    ∀ (n : ℕ) (c : Comp), (renderLoop snap n l c).active = c.active := by
  induction l with
  | nil => intro n c; rfl
  | cons style rest ih =>
    intro n c
    rw [renderLoop, ih]
    by_cases hs : snap n = true
    · rw [if_pos hs, updateRowInPlace_active]
    · rw [if_neg hs, createRowStep_active]

lemma renderLoop_untouched (snap : ℕ → Bool) (l : List SubExpressionStyle) :
    ∀ (n : ℕ) (c : Comp) (k : ℕ), k < n ∨ n + l.length ≤ k →
      (renderLoop snap n l c).dom k = c.dom k ∧
        (renderLoop snap n l c).pickers k = c.pickers k ∧
        (renderLoop snap n l c).existingRows k = c.existingRows k := by
  induction l with
  | nil => intro n c k _; exact ⟨rfl, rfl, rfl⟩
  | cons style rest ih =>
    intro n c k hk
    have hkn : k ≠ n := by
      rcases hk with h | h
      · omega
      · simp only [List.length_cons] at h; omega
    have hrec := ih (n + 1) (if snap n = true then updateRowInPlace style n c
      else createRowStep style n c) k (by
        rcases hk with h | h
        · left; omega
        · right; simp only [List.length_cons] at h; omega)
    rw [renderLoop]
    refine ⟨?_, ?_, ?_⟩
    · rw [hrec.1]
      by_cases hs : snap n = true
      · rw [if_pos hs, updateRowInPlace_dom_ne _ _ _ _ hkn]
      · rw [if_neg hs, (createRowStep_ne _ _ _ _ hkn).1]
    · rw [hrec.2.1]
      by_cases hs : snap n = true
      · rw [if_pos hs, updateRowInPlace_pickers_ne _ _ _ _ hkn]
      · rw [if_neg hs, (createRowStep_ne _ _ _ _ hkn).2.1]
    · rw [hrec.2.2]
      by_cases hs : snap n = true
      · rw [if_pos hs, updateRowInPlace_existingRows]
      · rw [if_neg hs, (createRowStep_ne _ _ _ _ hkn).2.2]

lemma renderLoop_covered (snap : ℕ → Bool) (l : List SubExpressionStyle) :
    ∀ (n : ℕ) (c : Comp) (k : ℕ), n ≤ k → k < n + l.length →
      (snap k = true →
        (c.pickers k).isSome = true ∧ c.existingRows k = true ∧
          (c.dom k).isSome = true) →
      ((renderLoop snap n l c).pickers k).isSome = true ∧
        (renderLoop snap n l c).existingRows k = true ∧
        ((renderLoop snap n l c).dom k).isSome = true := by
  induction l with
  | nil =>
    intro n c k h1 h2
    simp only [List.length_nil, Nat.add_zero] at h2
    omega
  | cons style rest ih =>
    intro n c k h1 h2 hpre
    rw [renderLoop]
    by_cases hkn : k = n
    · subst hkn
      have huntouched := renderLoop_untouched snap rest (k + 1)
        (if snap k = true then updateRowInPlace style k c else createRowStep style k c) k
        (Or.inl (by omega))
      rw [huntouched.1, huntouched.2.1, huntouched.2.2]
      by_cases hs : snap k = true
      · obtain ⟨hpk, hrk, hdk⟩ := hpre hs
        rw [if_pos hs]
        refine ⟨?_, ?_, ?_⟩
        · rw [updateRowInPlace_pickers_isSome]; exact hpk
        · rw [updateRowInPlace_existingRows]; exact hrk
        · rw [updateRowInPlace_dom_isSome]; exact hdk
      · rw [if_neg hs]
        obtain ⟨hd, hpk, hr⟩ := createRowStep_self style k c
        refine ⟨?_, hr, ?_⟩
        · rw [hpk]; rfl
        · rw [hd]; rfl
    · refine ih (n + 1) _ k (by omega) (by simp only [List.length_cons] at h2; omega) ?_
      intro hs
      obtain ⟨hpk, hrk, hdk⟩ := hpre hs
      by_cases hsn : snap n = true
      · rw [if_pos hsn, updateRowInPlace_pickers_ne _ _ _ _ hkn,
          updateRowInPlace_existingRows, updateRowInPlace_dom_ne _ _ _ _ hkn]
        exact ⟨hpk, hrk, hdk⟩
      · rw [if_neg hsn, (createRowStep_ne _ _ _ _ hkn).1, (createRowStep_ne _ _ _ _ hkn).2.1,
          (createRowStep_ne _ _ _ _ hkn).2.2]
        exact ⟨hpk, hrk, hdk⟩

lemma patchStep_pickers_isSome (last : List SubExpressionStyle)
    (style : SubExpressionStyle) (n : ℕ) (c : Comp) (k : ℕ) :
    ((patchStep last style n c).pickers k).isSome = (c.pickers k).isSome := by
  by_cases hkn : k = n
  · subst hkn
    cases hl : last[k]? with
    | none => rw [patchStep_eq_none last style k c hl]
    | some old =>
      rw [patchStep_eq_some last style k c old hl]
      by_cases hcond : old ≠ style ∧ c.existingRows k = true
      · rw [if_pos hcond, updateRowInPlace_pickers_isSome]
      · rw [if_neg hcond]
  · rw [patchStep_pickers_ne _ _ _ _ _ hkn]

lemma patchFrom_existingRows (last : List SubExpressionStyle)
    (l : List SubExpressionStyle) :
    ∀ (n : ℕ) (c : Comp), (patchFrom last n l c).existingRows = c.existingRows := by
  induction l with
  | nil => intro n c; rfl
  | cons style rest ih =>
    intro n c
    rw [patchFrom, ih, patchStep_existingRows]

lemma patchFrom_pickers_isSome (last : List SubExpressionStyle)
    (l : List SubExpressionStyle) :
    ∀ (n : ℕ) (c : Comp) (k : ℕ),
      ((patchFrom last n l c).pickers k).isSome = (c.pickers k).isSome := by
  induction l with
  | nil => intro n c k; rfl
  | cons style rest ih =>
    intro n c k
    rw [patchFrom, ih, patchStep_pickers_isSome]

lemma removalPass_fields (styles : List SubExpressionStyle) (c : Comp) (k : ℕ) :
    ((c.dom k).isSome = true → styles.length ≤ k →
      (removalPass styles c).dom k = none ∧
        (removalPass styles c).existingRows k = false ∧
        (removalPass styles c).pickers k = none ∧
        (removalPass styles c).active k = false) ∧
    (k < styles.length →
      (removalPass styles c).dom k = c.dom k ∧
        (removalPass styles c).existingRows k = c.existingRows k ∧
        (removalPass styles c).pickers k = c.pickers k ∧
        (removalPass styles c).active k = c.active k) ∧
    ((c.dom k).isSome = false →
      (removalPass styles c).dom k = c.dom k ∧
        (removalPass styles c).existingRows k = c.existingRows k ∧
        (removalPass styles c).pickers k = c.pickers k ∧
        (removalPass styles c).active k = c.active k) := by
  refine ⟨fun hd hk => ?_, fun hk => ?_, fun hd => ?_⟩
  · have hc : ((c.dom k).isSome && decide (styles.length ≤ k)) = true := by
      simp [hd, hk]
    refine ⟨?_, ?_, ?_, ?_⟩ <;> simp only [removalPass] <;> rw [if_pos hc]
  · have hc : ¬((c.dom k).isSome && decide (styles.length ≤ k)) = true := by
      simp
      intro _
      omega
    refine ⟨?_, ?_, ?_, ?_⟩ <;> simp only [removalPass] <;> rw [if_neg hc]
  · have hc : ¬((c.dom k).isSome && decide (styles.length ≤ k)) = true := by
      simp [hd]
    refine ⟨?_, ?_, ?_, ?_⟩ <;> simp only [removalPass] <;> rw [if_neg hc]

/-- C9: after a full `render` pass (initial render or structural change)
over a style list of length `n`, starting from a component whose
registries agree with the rendered rows, the `existingRows` and picker
registries contain exactly one entry per index `0..n-1`; every index that
carried a row but is no longer covered has its row removed and its
registry and active-edit entries evicted; no index enters the active-edit
set during the pass; and an in-place patch pass leaves both registries
untouched, so the invariant persists there as well. -/
theorem render_registry_invariant (styles : List SubExpressionStyle) (c : Comp)
    (hcons : ∀ k, (c.existingRows k = true ↔ (c.dom k).isSome = true) ∧
      ((c.pickers k).isSome = true ↔ (c.dom k).isSome = true)) :
    (∀ k, (render styles c).existingRows k = true ↔ k < styles.length) ∧
    (∀ k, ((render styles c).pickers k).isSome = true ↔ k < styles.length) ∧
    (∀ k, (c.dom k).isSome = true → styles.length ≤ k →
      (render styles c).dom k = none ∧ (render styles c).existingRows k = false ∧
        (render styles c).pickers k = none ∧ (render styles c).active k = false) ∧
    (∀ k, (render styles c).active k = true → c.active k = true) ∧
    (∀ last cur : List SubExpressionStyle,
      (patchFrom last 0 cur c).existingRows = c.existingRows ∧
        ∀ k, ((patchFrom last 0 cur c).pickers k).isSome = (c.pickers k).isSome) := by
  have hcover : ∀ k, k < styles.length →
      ((render styles c).pickers k).isSome = true ∧
        (render styles c).existingRows k = true ∧
        ((render styles c).dom k).isSome = true := by
    intro k hk
    rw [render]
    refine renderLoop_covered _ _ 0 _ k (Nat.zero_le k) (by omega) ?_
    intro hs
    obtain ⟨hkeep⟩ := (removalPass_fields styles c k).2.1 hk
    rw [(removalPass_fields styles c k).2.1 hk |>.1,
      (removalPass_fields styles c k).2.1 hk |>.2.1,
      (removalPass_fields styles c k).2.1 hk |>.2.2.1]
    exact ⟨(hcons k).2.mpr hs, (hcons k).1.mpr hs, hs⟩
  have hout : ∀ k, styles.length ≤ k →
      (render styles c).dom k = (removalPass styles c).dom k ∧
        (render styles c).pickers k = (removalPass styles c).pickers k ∧
        (render styles c).existingRows k = (removalPass styles c).existingRows k := by
    intro k hk
    rw [render]
    have h := renderLoop_untouched (fun k => (c.dom k).isSome) styles 0
      (removalPass styles c) k (Or.inr (by omega))
    exact ⟨h.1, h.2.1, h.2.2⟩
  have hactive : (render styles c).active = (removalPass styles c).active := by
    rw [render, renderLoop_active]
  refine ⟨fun k => ?_, fun k => ?_, fun k hd hk => ?_, fun k hk => ?_,
    fun last cur => ⟨patchFrom_existingRows last cur 0 c,
      fun k => patchFrom_pickers_isSome last cur 0 c k⟩⟩
  · by_cases hk : k < styles.length
    · simp only [hk, iff_true]
      exact (hcover k hk).2.1
    · simp only [hk, iff_false]
      rw [(hout k (by omega)).2.2]
      by_cases hd : (c.dom k).isSome = true
      · rw [((removalPass_fields styles c k).1 hd (by omega)).2.1]
        simp
      · rw [((removalPass_fields styles c k).2.2 (by simpa using hd)).2.1]
        simp only [Bool.not_eq_true] at hd
        intro hcontra
        have := (hcons k).1.mp hcontra
        rw [hd] at this
        cases this
  · by_cases hk : k < styles.length
    · simp only [hk, iff_true]
      exact (hcover k hk).1
    · simp only [hk, iff_false]
      rw [(hout k (by omega)).2.1]
      by_cases hd : (c.dom k).isSome = true
      · rw [((removalPass_fields styles c k).1 hd (by omega)).2.2.1]
        simp
      · rw [((removalPass_fields styles c k).2.2 (by simpa using hd)).2.2.1]
        simp only [Bool.not_eq_true] at hd
        intro hcontra
        have := (hcons k).2.mp hcontra
        rw [hd] at this
        cases this
  · obtain ⟨hd1, hr1, hp1, ha1⟩ := (removalPass_fields styles c k).1 hd hk
    refine ⟨?_, ?_, ?_, ?_⟩
    · rw [(hout k hk).1, hd1]
    · rw [(hout k hk).2.2, hr1]
    · rw [(hout k hk).2.1, hp1]
    · rw [hactive, ha1]
  · rw [hactive] at hk
    by_cases hrem : ((c.dom k).isSome && decide (styles.length ≤ k)) = true
    · exfalso
      have hfalse : (removalPass styles c).active k = false := by
        simp only [removalPass]
        rw [if_pos hrem]
      rw [hfalse] at hk
      cases hk
    · have hkeep : (removalPass styles c).active k = c.active k := by
        simp only [removalPass]
        rw [if_neg hrem]
      rw [hkeep] at hk
      exact hk

/-- Witness for C9 on the fixture with rows 0 and 2 and a 2-element style
list: row 1 is created, stale row 2 is destroyed with its registry and
active-edit entries evicted. -/
theorem render_registry_invariant_witness :
    ((render renderStylesFixture compFixture2).existingRows 1 = true) ∧
      (((render renderStylesFixture compFixture2).pickers 1).isSome = true) ∧
      ((render renderStylesFixture compFixture2).dom 2 = none ∧
        (render renderStylesFixture compFixture2).existingRows 2 = false ∧
        (render renderStylesFixture compFixture2).pickers 2 = none ∧
        (render renderStylesFixture compFixture2).active 2 = false) := by
  have h := render_registry_invariant renderStylesFixture compFixture2 (by
    intro k
    by_cases h0 : k = 0 <;> by_cases h2 : k = 2 <;>
      simp [compFixture2, h0, h2])
  exact ⟨(h.1 1).mpr (by decide), (h.2.1 1).mpr (by decide),
    h.2.2.1 2 (by decide) (by decide)⟩
